import Mathlib

/-!
Verification of the music-player repository: a shallow embedding of
`src/pages/api/music.ts` (API route handler, track data model, lyric
parsing, search scoring, rate limiting, track resolution, playback
navigation and the stale-request continuations) together with the local
track catalog from `src/data/localTracks.ts`.

Modelling conventions:
* Machine numbers are `Nat`/`Int`/`ℚ` (JS numbers here are small integers
  or exact sums `m*60 + s + ms/1000`, which floats represent faithfully
  for the ranges produced by the code).
* A JS value of type `string | undefined` (or `| null`) is `Option String`
  with `none` for `undefined`/`null`.  A field of type
  `string | null | undefined` is `Option (Option String)`: `none` is
  `undefined`, `some none` is `null`.
* JS string truthiness is `strTruthy` (non-empty string).
* Fallible code returns `Except String`; mutable state is passed
  explicitly.
-/

set_option maxHeartbeats 1000000

inductive MusicSource
  | netease
  | kuwo
  | joox
deriving DecidableEq, Repr

def MusicSource.toStr : MusicSource → String
  | .netease => "netease"
  | .kuwo => "kuwo"
  | .joox => "joox"

structure LocalTrack where
  id : String
  name : String
  artist : Option String := none
  album : Option String := none
  duration : Option String := none
  source : MusicSource
  keyword : Option String := none
  trackId : Option String := none
  picId : Option String := none
  lyricId : Option String := none
  bitrate : Option Nat := none
deriving DecidableEq, Repr

/-- Type `Track = LocalTrack & \x7b url?, cover?, lyric?, tLyric?, fileSizeKb? \x7d`. -/
structure Track extends LocalTrack where
  url : Option String := none
  cover : Option (Option String) := none
  lyric : Option (Option String) := none
  tLyric : Option (Option String) := none
  fileSizeKb : Option (Option Int) := none
deriving DecidableEq, Repr

/-- JS truthiness of a `string | undefined | null` value. -/
def strTruthy : Option String → Bool
  | none => false
  | some s => !(s == "")

/-- JS `url.replace(/&amp;/g, '&')` on a character list. -/
def replaceAmpChars : List Char → List Char
  | '&' :: 'a' :: 'm' :: 'p' :: ';' :: rest => '&' :: replaceAmpChars rest
  | c :: rest => c :: replaceAmpChars rest
  | [] => []

/-- Source `function sanitizeUrl(url) \x7b return url.replace(/&amp;/g, '&'); \x7d` -/
def sanitizeUrl (url : String) : String :=
  String.mk (replaceAmpChars url.toList)

/-- Source `function createTrack(track)` from `components/MusicPlayer.tsx`. -/
def createTrack (track : LocalTrack) : Track :=
  { toLocalTrack := track
    url := none
    cover := if strTruthy track.picId then none else some none
    lyric := some none
    tLyric := some none
    fileSizeKb := some none }

/-- The static catalog `LOCAL_TRACKS` from `src/data/localTracks.ts`. -/
def LOCAL_TRACKS : List LocalTrack :=
  [ { id := "netease-1867150097"
      name := "夏霞"
      artist := some "あたらよ"
      album := some "夏霞"
      source := .netease
      keyword := some "夏霞 あたらよ"
      trackId := some "1867150097"
      picId := some "109951166253940594"
      lyricId := some "1867150097"
      bitrate := some 320 }
  , { id := "netease-1835951859"
      name := "Avid"
      artist := some "SawanoHiroyuki[nZk], 瑞葵(mizuki)"
      album := some "Avid / Hands Up to the Sky"
      source := .netease
      keyword := some "Avid SawanoHiroyuki[nZk], 瑞葵(mizuki)"
      trackId := some "1835951859"
      picId := some "109951166004106688"
      lyricId := some "1835951859"
      bitrate := some 320 }
  , { id := "netease-554245242"
      name := "Cage"
      artist := some "Tielle, SawanoHiroyuki[nZk]"
      album := some "Binary Star/Cage"
      source := .netease
      keyword := some "Cage Tielle, SawanoHiroyuki[nZk]"
      trackId := some "554245242"
      picId := some "109951166200369055"
      lyricId := some "554245242"
      bitrate := some 320 }
  , { id := "netease-2051328176"
      name := "僕らはそれを愛と呼んだ"
      artist := some "あたらよ"
      album := some "僕らはそれを愛と呼んだ"
      source := .netease
      keyword := some "僕らはそれを愛と呼んだ あたらよ"
      trackId := some "2051328176"
      picId := some "109951168645551891"
      lyricId := some "2051328176"
      bitrate := some 320 } ]

/-- A request to the Next.js API route; the handler ignores all of it. -/
structure NextApiRequest where
  method : Option String := none
  headers : List (String × String) := []
  body : Option String := none
deriving DecidableEq, Repr

/-- The response produced through `res.status(...).json(...)`. -/
structure ApiRouteResponse where
  status : Nat
  body : List LocalTrack
deriving DecidableEq, Repr

/-- Source `export default function handler(req, res)` from `src/pages/api/music.ts`. -/
def handler (_req : NextApiRequest) : ApiRouteResponse :=
  { status := 200, body := LOCAL_TRACKS }

/-- C7: for every request, the API route handler responds with HTTP status 200
and a body that is exactly the static `LOCAL_TRACKS` catalog, regardless of the
request's method, headers, or body; it never fails (it is a total function)
and never returns anything else. -/
theorem handler_const_catalog :
    ∀ req : NextApiRequest,
      handler req = { status := 200, body := LOCAL_TRACKS } ∧
      (handler req).status = 200 ∧ (handler req).body = LOCAL_TRACKS := by
  intro req
  exact ⟨rfl, rfl, rfl⟩

/-- C10: `createTrack` keeps every descriptor field unchanged, sets `url` to
`undefined`, sets `lyric`, `tLyric` and `fileSizeKb` to `null`, and sets
`cover` to `undefined` exactly when the descriptor has a (truthy) `picId`,
and to `null` otherwise. -/
theorem createTrack_fields :
    ∀ t : LocalTrack,
      (createTrack t).toLocalTrack = t ∧
      (createTrack t).url = none ∧
      (createTrack t).lyric = some none ∧
      (createTrack t).tLyric = some none ∧
      (createTrack t).fileSizeKb = some none ∧
      (createTrack t).cover = (if strTruthy t.picId then none else some none) := by
  intro t
  exact ⟨rfl, rfl, rfl, rfl, rfl, rfl⟩

/-- The whitespace class of JS regexes and `String.prototype.trim`. -/
def isJsSpace (c : Char) : Bool :=
  c == ' ' || c == '\t' || c == '\n' || c == '\r' ||
  c == Char.ofNat 11 || c == Char.ofNat 12 ||
  c == Char.ofNat 0xa0 || c == Char.ofNat 0x1680 ||
  (0x2000 ≤ c.toNat && c.toNat ≤ 0x200a) ||
  c == Char.ofNat 0x2028 || c == Char.ofNat 0x2029 || c == Char.ofNat 0x202f ||
  c == Char.ofNat 0x205f || c == Char.ofNat 0x3000 || c == Char.ofNat 0xfeff

/-- The character class removed by `normalizeText`. -/
def isNormStripChar (c : Char) : Bool :=
  isJsSpace c || c == Char.ofNat 39 || c == '"' || c == '、' || c == '，' ||
  c == '。' || c == '！' || c == '？' || c == '!' || c == '（' || c == '）' ||
  c == '(' || c == ')' || c == '【' || c == '】' || c == '[' || c == ']' ||
  c == '《' || c == '》' || c == '“' || c == '”' || c == '‘' || c == '’' ||
  c == '·' || c == '.' || c == '_' || c == '/' || c == '-'

/-- Source `function normalizeText(value)`: lower-case (ASCII, as relevant here),
substitute `&amp;` by `&`, then delete the punctuation/whitespace class. -/
def normalizeText (value : Option String) : String :=
  match value with
  | none => ""
  | some s =>
    if s == "" then ""
    else String.mk ((replaceAmpChars (s.toList.map Char.toLower)).filter
      (fun c => !(isNormStripChar c)))

/-- A JSON `id` value of type `number | string`. -/
inductive ApiId
  | str (s : String)
  | num (n : Int)
deriving DecidableEq, Repr

/-- JS `String(id)` (with `String(undefined) = "undefined"`). -/
def ApiId.toStr : ApiId → String
  | .str s => s
  | .num n => toString n

/-- A JSON `artist` value of type `string[] | string`. -/
inductive ArtistVal
  | one (s : String)
  | many (l : List String)
deriving DecidableEq, Repr

/-- An element of the `search` endpoint response. -/
structure SearchApiItem where
  id : Option ApiId := none
  name : Option String := none
  artist : Option ArtistVal := none
  album : Option String := none
  pic_id : Option String := none
  lyric_id : Option String := none
  source : Option String := none
deriving DecidableEq, Repr

/-- JS truthiness of the `artist` argument (`[]` is truthy, `''` is falsy). -/
def artistTruthy : Option ArtistVal → Bool
  | none => false
  | some (.one s) => !(s == "")
  | some (.many _) => true

/-- The single-character alternatives of the artist separator regex
`[,，/&、x×+·]` (case-insensitive, hence matched against the lower-case). -/
def artistSepChars : List Char := [',', '，', '/', '&', '、', 'x', '×', '+', '·']

/-- The word alternatives `feat\.?|ft\.?|with|合作|合唱` in regex order
(the greedy optional dot makes `feat.` precede `feat`). -/
def artistSepWords : List (List Char) :=
  [ "feat.".toList, "feat".toList, "ft.".toList, "ft".toList,
    "with".toList, "合作".toList, "合唱".toList ]

/-- Does `cs` start with `w`, comparing case-insensitively? -/
def lowerLeads : List Char → List Char → Bool
  | [], _ => true
  | _ :: _, [] => false
  | w :: ws, c :: cs => (c.toLower == w) && lowerLeads ws cs

/-- First separator word matching at the front of `cs`; returns its length. -/
def firstSepWord : List (List Char) → List Char → Option Nat
  | [], _ => none
  | w :: ws, cs => if lowerLeads w cs then some w.length else firstSepWord ws cs

/-- Try to match the artist separator regex at the front of `cs`,
returning the remaining input. -/
def matchArtistSep : List Char → Option (List Char)
  | [] => none
  | c :: rest =>
    if artistSepChars.contains c.toLower then some rest
    else
      match firstSepWord artistSepWords (c :: rest) with
      | some k => some ((c :: rest).drop k)
      | none => none

theorem firstSepWord_some_pos :
    ∀ (ws : List (List Char)) (cs : List Char) (k : Nat),
      (∀ w ∈ ws, 1 ≤ w.length) → firstSepWord ws cs = some k → 1 ≤ k := by
  intro ws
  induction ws with
  | nil => intro cs k _ hk; simp [firstSepWord] at hk
  | cons w ws ih =>
    intro cs k h hk
    unfold firstSepWord at hk
    by_cases hl : lowerLeads w cs = true
    · rw [if_pos hl] at hk
      cases hk
      exact h w (List.mem_cons_self w ws)
    · rw [if_neg hl] at hk
      exact ih cs k (fun x hx => h x (List.mem_cons_of_mem w hx)) hk

theorem matchArtistSep_lt (cs r : List Char) :
    matchArtistSep cs = some r → r.length < cs.length := by
  intro h
  match cs with
  | [] => simp [matchArtistSep] at h
  | c :: rest =>
    simp only [matchArtistSep] at h
    split at h
    · cases h
      simp
    · split at h
      · rename_i k hw
        cases h
        have hk : 1 ≤ k := by
          refine firstSepWord_some_pos _ _ _ ?_ hw
          intro w hwmem
          fin_cases hwmem <;> simp
        simp only [List.length_drop, List.length_cons]
        omega
      · simp at h

/-- JS `String.prototype.split` with the artist separator regex: scan for
leftmost matches, cutting the string at each one.  `acc` is the reversed
current piece. -/
def splitArtistChars : List Char → List Char → List (List Char)
  | [], acc => [acc.reverse]
  | c :: rest, acc =>
    match h : matchArtistSep (c :: rest) with
    | some r => acc.reverse :: splitArtistChars r []
    | none => splitArtistChars rest (c :: acc)
termination_by cs _ => cs.length
decreasing_by
  · exact matchArtistSep_lt _ _ h
  · simp

/-- Source `function collectArtistTokens(artist)`. -/
def collectArtistTokens (artist : Option ArtistVal) : List String :=
  if !(artistTruthy artist) then []
  else
    let raw : List String :=
      match artist with
      | some (.many l) => l
      | some (.one s) => [s]
      | none => []
    (((raw.map (fun s => splitArtistChars s.toList [])).flatten).map
      (fun tok => normalizeText (some (String.mk tok)))).filter
      (fun s => !(s == ""))

/-- Does `hay` start with `needle`? -/
def chListLeads : List Char → List Char → Bool
  | [], _ => true
  | _ :: _, [] => false
  | a :: as, b :: bs => (a == b) && chListLeads as bs

/-- JS `hay.includes(needle)`. -/
def chListHasSub : List Char → List Char → Bool
  | [], needle => needle.isEmpty
  | hay@(_ :: rest), needle => chListLeads needle hay || chListHasSub rest needle

/-- JS `hay.includes(needle)` on strings. -/
def strHasSub (hay needle : String) : Bool :=
  chListHasSub hay.toList needle.toList

/-- The score an item receives against the target track inside
`selectBestSearchResult`. -/
def itemScore (target : Track) (item : SearchApiItem) : Int :=
  let targetName := normalizeText (some target.name)
  let targetArtists := collectArtistTokens (target.artist.map ArtistVal.one)
  let itemName := normalizeText item.name
  let itemArtists := collectArtistTokens item.artist
  let nameScore : Int :=
    if !(targetName == "") && itemName == targetName then 4
    else if !(targetName == "") && strHasSub itemName targetName then 2
    else 0
  let artistScore : Int :=
    if !targetArtists.isEmpty && !itemArtists.isEmpty &&
        itemArtists.any (fun tok => targetArtists.contains tok) then 4
    else 0
  let sourceScore : Int :=
    if strTruthy item.source && item.source == some target.source.toStr then 1
    else 0
  nameScore + artistScore + sourceScore

/-- Comparison `score > bestScore` where `none` is the initial `-Infinity`. -/
def scoreGtB (s : Int) : Option Int → Bool
  | none => true
  | some b => decide (b < s)

/-- Comparison `score === bestScore` where `none` is the initial `-Infinity`. -/
def scoreEqB (s : Int) : Option Int → Bool
  | none => false
  | some b => s == b

/-- The `results.forEach` loop of `selectBestSearchResult`, with explicit
`index`, `best`, `bestScore` and `bestIndex` state. -/
def selGo (target : Track) :
    List SearchApiItem → Nat → SearchApiItem → Option Int → Nat →
    SearchApiItem × Option Int × Nat
  | [], _, best, bestScore, bestIndex => (best, bestScore, bestIndex)
  | item :: rest, index, best, bestScore, bestIndex =>
    let score := itemScore target item
    if scoreGtB score bestScore || (scoreEqB score bestScore && decide (index < bestIndex)) then
      selGo target rest (index + 1) item (some score) index
    else
      selGo target rest (index + 1) best bestScore bestIndex

/-- Source `function selectBestSearchResult(results, target)`; the final
`best ?? null` never yields `null` on a non-empty list. -/
def selectBestSearchResult (results : List SearchApiItem) (target : Track) :
    Option SearchApiItem :=
  match results with
  | [] => none
  | r0 :: _ => some (selGo target results 0 r0 none 0).1

/-- Loop invariant of `selGo`: the current `best`, `bestScore` and
`bestIndex` describe the earliest maximal-score element of the processed
prefix. -/
def SelInv (target : Track) (processed : List SearchApiItem)
    (best : SearchApiItem) (s : Int) (bi : Nat) : Prop :=
  ∃ h : bi < processed.length,
    best = processed[bi] ∧
    s = itemScore target best ∧
    (∀ j (hj : j < processed.length), itemScore target processed[j] ≤ s) ∧
    (∀ j (hj : j < processed.length), j < bi → itemScore target processed[j] < s)

theorem selGo_inv (target : Track) :
    ∀ (rest processed : List SearchApiItem) (best : SearchApiItem) (s : Int) (bi : Nat)
      (b' : SearchApiItem) (bs' : Option Int) (bi' : Nat),
      SelInv target processed best s bi →
      selGo target rest processed.length best (some s) bi = (b', bs', bi') →
      ∃ s', bs' = some s' ∧ SelInv target (processed ++ rest) b' s' bi' := by
  intro rest
  induction rest with
  | nil =>
    intro processed best s bi b' bs' bi' hinv hrun
    simp only [selGo] at hrun
    cases hrun
    exact ⟨s, rfl, by simpa using hinv⟩
  | cons item rest ih =>
    intro processed best s bi b' bs' bi' hinv hrun
    obtain ⟨hbi, hbest, hs, hmax, hstrict⟩ := hinv
    have hdec : decide (processed.length < bi) = false := by
      simp only [decide_eq_false_iff_not]
      omega
    simp only [selGo, scoreGtB, scoreEqB, hdec, Bool.and_false, Bool.or_false] at hrun
    by_cases hlt : s < itemScore target item
    · rw [if_pos (by simpa using hlt)] at hrun
      have hlen : processed.length + 1 = (processed ++ [item]).length := by simp
      rw [hlen] at hrun
      have hinv' : SelInv target (processed ++ [item]) item (itemScore target item)
          processed.length := by
        refine ⟨by simp, by simp, rfl, ?_, ?_⟩
        · intro j hj
          rcases Nat.lt_succ_iff_lt_or_eq.mp (by simpa using hj) with hj' | hj'
          · rw [List.getElem_append_left hj']
            exact le_of_lt (lt_of_le_of_lt (hmax j hj') hlt)
          · subst hj'
            simp
        · intro j hj hjlt
          rw [List.getElem_append_left hjlt]
          exact lt_of_le_of_lt (hmax j hjlt) hlt
      obtain ⟨s', hbs, hres⟩ :=
        ih (processed ++ [item]) item (itemScore target item) processed.length b' bs' bi'
          hinv' hrun
      refine ⟨s', hbs, ?_⟩
      simpa [List.append_assoc] using hres
    · rw [if_neg (by simpa using hlt)] at hrun
      have hlen : processed.length + 1 = (processed ++ [item]).length := by simp
      rw [hlen] at hrun
      have hscore : itemScore target item ≤ s := le_of_not_lt hlt
      have hinv' : SelInv target (processed ++ [item]) best s bi := by
        refine ⟨by simp; omega, ?_, hs, ?_, ?_⟩
        · rw [List.getElem_append_left hbi]
          exact hbest
        · intro j hj
          rcases Nat.lt_succ_iff_lt_or_eq.mp (by simpa using hj) with hj' | hj'
          · rw [List.getElem_append_left hj']
            exact hmax j hj'
          · subst hj'
            simpa using hscore
        · intro j hj hjlt
          have hj' : j < processed.length := by omega
          rw [List.getElem_append_left hj']
          exact hstrict j hj' hjlt
      obtain ⟨s', hbs, hres⟩ := ih (processed ++ [item]) best s bi b' bs' bi' hinv' hrun
      refine ⟨s', hbs, ?_⟩
      simpa [List.append_assoc] using hres

/-- C1: for every non-empty result list and target, `selectBestSearchResult`
returns (`some` of) the earliest element attaining the maximal `itemScore`
(+4 exact normalized-name match, else +2 normalized-name containment, +4
shared normalized artist token, +1 same source); for the empty list it
returns `none` (as it does for a JS `null` argument). -/
theorem selectBest_first_max :
    (∀ target : Track, selectBestSearchResult [] target = none) ∧
    (∀ (results : List SearchApiItem) (target : Track), results ≠ [] →
      ∃ (i : Nat) (hi : i < results.length),
        selectBestSearchResult results target = some results[i] ∧
        (∀ j (hj : j < results.length),
          itemScore target results[j] ≤ itemScore target results[i]) ∧
        (∀ j (hj : j < results.length), j < i →
          itemScore target results[j] < itemScore target results[i])) := by
  constructor
  · intro target
    rfl
  · intro results target hne
    match results with
    | [] => exact absurd rfl hne
    | r0 :: rs =>
      have hstep : selGo target (r0 :: rs) 0 r0 none 0 =
          selGo target rs 1 r0 (some (itemScore target r0)) 0 := by
        simp [selGo, scoreGtB]
      have hinv0 : SelInv target [r0] r0 (itemScore target r0) 0 := by
        refine ⟨by simp, by simp, rfl, ?_, ?_⟩
        · intro j hj
          have hj0 : j = 0 := by simpa using hj
          subst hj0
          simp
        · intro j hj hjlt
          omega
      obtain ⟨s', hbs, hres⟩ :=
        selGo_inv target rs [r0] r0 (itemScore target r0) 0
          (selGo target rs 1 r0 (some (itemScore target r0)) 0).1
          (selGo target rs 1 r0 (some (itemScore target r0)) 0).2.1
          (selGo target rs 1 r0 (some (itemScore target r0)) 0).2.2
          hinv0 (by simp)
      obtain ⟨hbi, hbest, hs, hmax, hstrict⟩ := hres
      refine ⟨(selGo target rs 1 r0 (some (itemScore target r0)) 0).2.2, by simpa using hbi,
        ?_, ?_, ?_⟩
      · show some (selGo target (r0 :: rs) 0 r0 none 0).1 = _
        rw [hstep]
        exact congrArg some (by simpa using hbest)
      · intro j hj
        have h2 := hmax j (by simpa using hj)
        rw [hs, hbest] at h2
        simpa using h2
      · intro j hj hjlt
        have h2 := hstrict j (by simpa using hj) hjlt
        rw [hs, hbest] at h2
        simpa using h2

/-- A parsed lyric line; `time = none` models `Number.POSITIVE_INFINITY`. -/
structure LyricLine where
  time : Option ℚ
  text : String
deriving DecidableEq, Repr

/-- The raw captures of one match of
`/\[(\d\x7b1,2\x7d):(\d\x7b1,2\x7d)(?:\.(\d\x7b1,3\x7d))?]/`. -/
structure RawTag where
  minutes : List Char
  seconds : List Char
  millisRaw : Option (List Char)
deriving DecidableEq, Repr

/-- Match the `(\d\x7b1,3\x7d)]` tail of a time tag after the dot.  The greedy
quantifier with backtracking is equivalent to taking up to three leading
digits and requiring `]` right after them (a shorter digit run would have to
be followed by `]`, but the next character is a digit). -/
def matchMillis (rest : List Char) : Option (List Char × List Char) :=
  let ds := (rest.takeWhile Char.isDigit).take 3
  if ds.isEmpty then none
  else
    match rest.drop ds.length with
    | ']' :: r => some (ds, r)
    | _ => none

/-- Match the time-tag regex at the front of the input, returning the raw
captures and the rest of the input.  As in `matchMillis`, each greedy
`\d\x7b1,2\x7d` resolves deterministically to its longest run (capped at 2). -/
def matchTimeTag : List Char → Option (RawTag × List Char)
  | '[' :: rest =>
    let mds := (rest.takeWhile Char.isDigit).take 2
    if mds.isEmpty then none
    else
      match rest.drop mds.length with
      | ':' :: rest2 =>
        let sds := (rest2.takeWhile Char.isDigit).take 2
        if sds.isEmpty then none
        else
          match rest2.drop sds.length with
          | '.' :: rest3 =>
            match matchMillis rest3 with
            | some (ms, rest4) => some (⟨mds, sds, some ms⟩, rest4)
            | none => none
          | ']' :: rest3 => some (⟨mds, sds, none⟩, rest3)
          | _ => none
      | _ => none
  | _ => none

theorem matchMillis_lt (cs ms r : List Char) :
    matchMillis cs = some (ms, r) → r.length < cs.length := by
  intro h
  simp only [matchMillis] at h
  split at h
  · simp at h
  · split at h
    · rename_i heq
      cases h
      have := congrArg List.length heq
      simp only [List.length_drop, List.length_cons] at this
      omega
    · simp at h

theorem matchTimeTag_lt (cs : List Char) (t : RawTag) (r : List Char) :
    matchTimeTag cs = some (t, r) → r.length < cs.length := by
  intro h
  simp only [matchTimeTag] at h
  split at h
  · rename_i rest
    split at h
    · simp at h
    · split at h
      · rename_i rest2 heq2
        have hl2 := congrArg List.length heq2
        simp only [List.length_drop, List.length_cons] at hl2
        split at h
        · simp at h
        · split at h
          · rename_i rest3 heq3
            have hl3 := congrArg List.length heq3
            simp only [List.length_drop, List.length_cons] at hl3
            split at h
            · rename_i ms rest4 heq4
              cases h
              have := matchMillis_lt rest3 ms r heq4
              simp only [List.length_cons]
              omega
            · simp at h
          · rename_i rest3 heq3
            have hl3 := congrArg List.length heq3
            simp only [List.length_drop, List.length_cons] at hl3
            cases h
            simp only [List.length_cons]
            omega
          · simp at h
      · simp at h
  · simp at h

/-- One left-to-right scan of a line with the (global) time-tag regex,
as shared by `line.replace(timeTagRegex, '')` and `line.matchAll(timeTagRegex)`:
both visit exactly the leftmost non-overlapping matches.  Returns the list
of matches and the line with the matched spans deleted. -/
def scanLine : List Char → List RawTag × List Char
  | [] => ([], [])
  | c :: rest =>
    match h : matchTimeTag (c :: rest) with
    | some (tag, r) =>
      let res := scanLine r
      (tag :: res.1, res.2)
    | none =>
      let res := scanLine rest
      (res.1, c :: res.2)
termination_by cs => cs.length
decreasing_by
  · exact matchTimeTag_lt _ _ _ h
  · simp

/-- Source `[...line.matchAll(timeTagRegex)]`. -/
def matchAllTags (cs : List Char) : List RawTag := (scanLine cs).1

/-- Source `line.replace(timeTagRegex, '')`. -/
def stripTags (cs : List Char) : List Char := (scanLine cs).2

/-- JS `String.prototype.trim`. -/
def jsTrim (s : String) : String :=
  String.mk ((((s.toList.dropWhile isJsSpace).reverse).dropWhile isJsSpace).reverse)

/-- Source `lyric.split(/\r?\n/)`. -/
def splitJsLines : List Char → List (List Char)
  | [] => [[]]
  | '\r' :: '\n' :: rest => [] :: splitJsLines rest
  | '\n' :: rest => [] :: splitJsLines rest
  | c :: rest =>
    match splitJsLines rest with
    | [] => [[c]]
    | l :: ls => (c :: l) :: ls

/-- JS `Number.parseInt` on a non-empty digit string. -/
def parseNatDigits (ds : List Char) : Nat :=
  ds.foldl (fun n c => 10 * n + (c.toNat - 48)) 0

/-- Time `minutes * 60 + seconds + millis / 1000` with
`millis = parseInt(millisRaw.padEnd(3, '0').slice(0, 3), 10)` and
`millisRaw = match[3] ?? '0'`. -/
def tagTime (t : RawTag) : ℚ :=
  let minutes := parseNatDigits t.minutes
  let seconds := parseNatDigits t.seconds
  let millisRaw := t.millisRaw.getD ['0']
  let millis := parseNatDigits ((millisRaw ++ List.replicate (3 - millisRaw.length) '0').take 3)
  (minutes : ℚ) * 60 + (seconds : ℚ) + (millis : ℚ) / 1000

/-- The entries pushed onto `result` for one line of the lyric input. -/
def lineEntries (line : List Char) : List LyricLine :=
  let text := jsTrim (String.mk (stripTags line))
  let tagMatches := matchAllTags line
  match tagMatches with
  | [] => if 0 < text.length then [{ time := none, text := text }] else []
  | _ =>
    if 0 < text.length then
      tagMatches.map (fun t => { time := some (tagTime t), text := text })
    else []

/-- The whole `result` array accumulated over `lyric.split(/\r?\n/)`. -/
def collectLyricEntries (s : String) : List LyricLine :=
  ((splitJsLines s.toList).map lineEntries).flatten

/-- Comparator result `a.time - b.time < 0`; `none` is `+Infinity`
(`Infinity - Infinity` is `NaN`, which the sort treats as `0`). -/
def timeLtB : Option ℚ → Option ℚ → Bool
  | some a, some b => Rat.blt a b
  | some _, none => true
  | none, _ => false

/-- Stable insertion of one element per the `(a, b) => a.time - b.time`
comparator: the new element goes before the first position whose element is
not strictly below it. -/
def insertLyricLine (x : LyricLine) : List LyricLine → List LyricLine
  | [] => [x]
  | y :: ys => if timeLtB y.time x.time then y :: insertLyricLine x ys else x :: y :: ys

/-- Source `.sort((a, b) => a.time - b.time)` — a stable sort by time. -/
def sortLyric : List LyricLine → List LyricLine
  | [] => []
  | x :: xs => insertLyricLine x (sortLyric xs)

/-- Equality `prev.time === current.time && prev.text === current.text`. -/
def lineBEq (a b : LyricLine) : Bool :=
  (a.time == b.time) && (a.text == b.text)

/-- The inner loop of the `.reduce` deduplication: `prev` is the last kept
entry. -/
def dedupAdjGo (prev : LyricLine) : List LyricLine → List LyricLine
  | [] => []
  | y :: ys => if lineBEq prev y then dedupAdjGo prev ys else y :: dedupAdjGo y ys

/-- The `.reduce` pass dropping entries equal (time and text) to the last
kept entry. -/
def dedupAdj : List LyricLine → List LyricLine
  | [] => []
  | x :: xs => x :: dedupAdjGo x xs

/-- Source `function parseLyricLines(lyric)`. -/
def parseLyricLines (lyric : Option String) : List LyricLine :=
  match lyric with
  | none => []
  | some s =>
    if s == "" then []
    else dedupAdj (sortLyric (collectLyricEntries s))

/-- Order `a.time ≤ b.time` in the comparator sense (`none` is `+Infinity`):
`b` does not sort strictly below `a`. -/
def LyricLe (a b : LyricLine) : Prop := timeLtB b.time a.time = false

theorem ratBlt_iff (a b : ℚ) : Rat.blt a b = true ↔ a < b := Eq.to_iff rfl

theorem timeLtB_asymm : ∀ a b : Option ℚ, timeLtB a b = true → timeLtB b a = false := by
  intro a b h
  match a, b with
  | none, _ => simp [timeLtB] at h
  | some x, none => rfl
  | some x, some y =>
    have hlt : x < y := (ratBlt_iff x y).mp h
    have hn : ¬ y < x := lt_asymm hlt
    simp only [timeLtB]
    rw [Bool.eq_false_iff]
    intro hc
    exact hn ((ratBlt_iff y x).mp hc)

theorem timeLtB_trans_false :
    ∀ a b c : Option ℚ, timeLtB b a = false → timeLtB c b = false → timeLtB c a = false := by
  intro a b c h1 h2
  match a, b, c with
  | _, _, none => rfl
  | none, none, some z => exact h2
  | none, some y, some z => simp [timeLtB] at h1
  | some x, none, some z => simp [timeLtB] at h2
  | some x, some y, some z =>
    simp only [timeLtB] at h1 h2 ⊢
    rw [Bool.eq_false_iff] at h1 h2 ⊢
    intro hc
    have hzx : z < x := (ratBlt_iff z x).mp hc
    have hxy : x ≤ y := le_of_not_lt (fun hl => h1 ((ratBlt_iff y x).mpr hl))
    have hyz : y ≤ z := le_of_not_lt (fun hl => h2 ((ratBlt_iff z y).mpr hl))
    exact absurd hzx (not_lt.mpr (le_trans hxy hyz))

theorem mem_insertLyricLine (x z : LyricLine) :
    ∀ l, z ∈ insertLyricLine x l → z = x ∨ z ∈ l := by
  intro l
  induction l with
  | nil =>
    intro h
    simpa [insertLyricLine] using h
  | cons y ys ih =>
    intro h
    simp only [insertLyricLine] at h
    split at h
    · rcases List.mem_cons.mp h with rfl | h2
      · exact Or.inr (List.mem_cons_self _ _)
      · rcases ih h2 with h3 | h3
        · exact Or.inl h3
        · exact Or.inr (List.mem_cons_of_mem _ h3)
    · rcases List.mem_cons.mp h with rfl | h2
      · exact Or.inl rfl
      · exact Or.inr h2

theorem mem_sortLyric (z : LyricLine) : ∀ l, z ∈ sortLyric l → z ∈ l := by
  intro l
  induction l with
  | nil => intro h; simpa [sortLyric] using h
  | cons y ys ih =>
    intro h
    simp only [sortLyric] at h
    rcases mem_insertLyricLine y z (sortLyric ys) h with rfl | h2
    · exact List.mem_cons_self _ _
    · exact List.mem_cons_of_mem _ (ih h2)

theorem pairwise_insertLyricLine (x : LyricLine) :
    ∀ l, List.Pairwise LyricLe l → List.Pairwise LyricLe (insertLyricLine x l) := by
  intro l
  induction l with
  | nil => intro _; simp [insertLyricLine, LyricLe]
  | cons y ys ih =>
    intro hp
    rw [List.pairwise_cons] at hp
    obtain ⟨hy, hys⟩ := hp
    by_cases hc : timeLtB y.time x.time = true
    · simp only [insertLyricLine, hc, if_true]
      rw [List.pairwise_cons]
      refine ⟨?_, ih hys⟩
      intro z hz
      rcases mem_insertLyricLine x z ys hz with rfl | hzys
      · exact timeLtB_asymm _ _ hc
      · exact hy z hzys
    · have hc' : timeLtB y.time x.time = false := by
        rw [Bool.eq_false_iff]; exact hc
      rw [show insertLyricLine x (y :: ys) = x :: y :: ys from by
        simp [insertLyricLine, hc']]
      rw [List.pairwise_cons]
      refine ⟨?_, List.pairwise_cons.mpr ⟨hy, hys⟩⟩
      intro z hz
      rcases List.mem_cons.mp hz with rfl | hzys
      · exact hc'
      · exact timeLtB_trans_false x.time y.time z.time hc' (hy z hzys)

theorem pairwise_sortLyric : ∀ l, List.Pairwise LyricLe (sortLyric l) := by
  intro l
  induction l with
  | nil => simp [sortLyric]
  | cons y ys ih => exact pairwise_insertLyricLine y (sortLyric ys) ih

theorem dedupAdjGo_sublist :
    ∀ (l : List LyricLine) (prev : LyricLine), (dedupAdjGo prev l).Sublist l := by
  intro l
  induction l with
  | nil => intro prev; simp [dedupAdjGo]
  | cons y ys ih =>
    intro prev
    by_cases h : lineBEq prev y = true
    · simp only [dedupAdjGo, h, if_true]
      exact (ih prev).cons y
    · have h' : lineBEq prev y = false := by rw [Bool.eq_false_iff]; exact h
      simp only [dedupAdjGo, h', if_false]
      exact (ih y).cons₂ y

theorem dedupAdj_sublist : ∀ l : List LyricLine, (dedupAdj l).Sublist l := by
  intro l
  match l with
  | [] => simp [dedupAdj]
  | x :: xs => exact (dedupAdjGo_sublist xs x).cons₂ x

theorem chain'_dedupAdjGo :
    ∀ (l : List LyricLine) (prev : LyricLine),
      List.Chain' (fun a b => lineBEq a b = false) (prev :: dedupAdjGo prev l) := by
  intro l
  induction l with
  | nil => intro prev; simp [dedupAdjGo]
  | cons y ys ih =>
    intro prev
    by_cases h : lineBEq prev y = true
    · simp only [dedupAdjGo, h, if_true]
      exact ih prev
    · have h' : lineBEq prev y = false := by rw [Bool.eq_false_iff]; exact h
      simp only [dedupAdjGo, h', if_false]
      exact List.chain'_cons.mpr ⟨h', ih y⟩

theorem chain'_dedupAdj :
    ∀ l : List LyricLine, List.Chain' (fun a b => lineBEq a b = false) (dedupAdj l) := by
  intro l
  match l with
  | [] => simp [dedupAdj]
  | x :: xs =>
    simp only [dedupAdj]
    exact chain'_dedupAdjGo xs x

theorem lineEntries_text_pos (line : List Char) (e : LyricLine) :
    e ∈ lineEntries line → 0 < e.text.length := by
  intro he
  simp only [lineEntries] at he
  split at he
  · split at he
    · rename_i hpos
      rcases List.mem_singleton.mp he with rfl
      exact hpos
    · simp at he
  · split at he
    · rename_i hpos
      obtain ⟨t, _, rfl⟩ := List.mem_map.mp he
      exact hpos
    · simp at he

theorem collectLyricEntries_text_pos (s : String) (e : LyricLine) :
    e ∈ collectLyricEntries s → 0 < e.text.length := by
  intro he
  simp only [collectLyricEntries] at he
  obtain ⟨l, hl, hel⟩ := List.mem_flatten.mp he
  obtain ⟨line, _, rfl⟩ := List.mem_map.mp hl
  exact lineEntries_text_pos line e hel

/-- C2: `parseLyricLines` returns the per-tag entries (time
`m*60 + s + millis/1000`, millis right-padded/truncated to 3 digits, `none`
i.e. `+Infinity` for untimed non-empty lines, empty-text entries dropped),
sorted non-decreasingly by time with adjacent duplicates (same time and
text) removed; `null`/`undefined` and the empty string yield `[]`. -/
theorem parseLyricLines_spec :
    parseLyricLines none = [] ∧
    parseLyricLines (some "") = [] ∧
    (∀ s : String, parseLyricLines (some s) = dedupAdj (sortLyric (collectLyricEntries s))) ∧
    (∀ s : String, List.Pairwise LyricLe (parseLyricLines (some s))) ∧
    (∀ s : String,
      List.Chain' (fun a b => lineBEq a b = false) (parseLyricLines (some s))) ∧
    (∀ s : String,
      (parseLyricLines (some s)).all (fun e => decide (0 < e.text.length)) = true) := by
  have key : ∀ s : String,
      parseLyricLines (some s) = dedupAdj (sortLyric (collectLyricEntries s)) := by
    intro s
    by_cases h : s = ""
    · subst h
      simp [parseLyricLines, collectLyricEntries, splitJsLines, lineEntries,
        matchAllTags, stripTags, scanLine, jsTrim, sortLyric, dedupAdj]
    · have hb : (s == "") = false := by
        rw [beq_eq_false_iff_ne]
        exact h
      simp [parseLyricLines, hb]
  refine ⟨rfl, rfl, key, ?_, ?_, ?_⟩
  · intro s
    rw [key s]
    exact (pairwise_sortLyric (collectLyricEntries s)).sublist
      (dedupAdj_sublist (sortLyric (collectLyricEntries s)))
  · intro s
    rw [key s]
    exact chain'_dedupAdj (sortLyric (collectLyricEntries s))
  · intro s
    rw [key s]
    rw [List.all_eq_true]
    intro e he
    have h1 : e ∈ sortLyric (collectLyricEntries s) :=
      (dedupAdj_sublist (sortLyric (collectLyricEntries s))).mem he
    have h2 : e ∈ collectLyricEntries s := mem_sortLyric e _ h1
    exact decide_eq_true (collectLyricEntries_text_pos s e h2)

def RATE_LIMIT_WINDOW_MS : Int := 5 * 60 * 1000

def RATE_LIMIT_MAX_REQUESTS : Nat := 60

/-- Source `registerRequest` with explicit state: drop timestamps older than the
window, then either refuse (the code throws) or append `now`.  The filtered
list is written back to the ref in both cases, as in the code. -/
def registerRequest (now : Int) (stamps : List Int) : List Int × Bool :=
  let kept := stamps.filter (fun ts => decide (now - RATE_LIMIT_WINDOW_MS ≤ ts))
  if RATE_LIMIT_MAX_REQUESTS ≤ kept.length then (kept, false)
  else (kept ++ [now], true)

/-- Run `registerRequest` over a sequence of call times, returning the
timestamps of the admitted requests. -/
def runRateLimiter : List Int → List Int → List Int
  | _, [] => []
  | stamps, now :: rest =>
    let step := registerRequest now stamps
    if step.2 then now :: runRateLimiter step.1 rest
    else runRateLimiter step.1 rest

/-- Each admitted timestamp was preceded by at most 59 admitted timestamps
within its look-back window. -/
def Spaced (A : List Int) : Prop :=
  ∀ k (h : k < A.length),
    (A.take k).countP (fun a => decide (A[k] - RATE_LIMIT_WINDOW_MS ≤ a)) ≤ 59

theorem filter_filter_window (adm : List Int) (c d : Int) (hcd : c ≤ d) :
    (adm.filter (fun a => decide (c ≤ a))).filter (fun a => decide (d ≤ a)) =
      adm.filter (fun a => decide (d ≤ a)) := by
  rw [List.filter_filter]
  apply List.filter_congr
  intro a _
  by_cases hda : d ≤ a
  · have hca : c ≤ a := le_trans hcd hda
    simp [hda, hca]
  · simp [hda]

theorem spaced_append (adm : List Int) (now : Int)
    (hcnt : (adm.filter (fun a => decide (now - RATE_LIMIT_WINDOW_MS ≤ a))).length ≤ 59)
    (hsp : Spaced adm) : Spaced (adm ++ [now]) := by
  intro k hk
  by_cases hka : k < adm.length
  · have htake : (adm ++ [now]).take k = adm.take k :=
      List.take_append_of_le_length (le_of_lt hka)
    have hget : (adm ++ [now])[k] = adm[k] := List.getElem_append_left hka
    rw [htake, hget]
    exact hsp k hka
  · have hk' : k = adm.length := by
      have := hk
      simp only [List.length_append, List.length_singleton] at this
      omega
    subst hk'
    have htake : (adm ++ [now]).take adm.length = adm := List.take_left adm [now]
    have hget : (adm ++ [now])[adm.length] = now := by simp
    rw [htake, hget, List.countP_eq_length_filter]
    exact hcnt

theorem runRateLimiter_cons (stamps : List Int) (now : Int) (rest : List Int) :
    runRateLimiter stamps (now :: rest) =
      if (registerRequest now stamps).2 then
        now :: runRateLimiter (registerRequest now stamps).1 rest
      else runRateLimiter (registerRequest now stamps).1 rest := rfl

theorem registerRequest_throw (now : Int) (stamps : List Int)
    (h : RATE_LIMIT_MAX_REQUESTS ≤
      (stamps.filter (fun ts => decide (now - RATE_LIMIT_WINDOW_MS ≤ ts))).length) :
    registerRequest now stamps =
      (stamps.filter (fun ts => decide (now - RATE_LIMIT_WINDOW_MS ≤ ts)), false) := by
  simp only [registerRequest]
  rw [if_pos h]

theorem registerRequest_appendNow (now : Int) (stamps : List Int)
    (h : ¬ RATE_LIMIT_MAX_REQUESTS ≤
      (stamps.filter (fun ts => decide (now - RATE_LIMIT_WINDOW_MS ≤ ts))).length) :
    registerRequest now stamps =
      (stamps.filter (fun ts => decide (now - RATE_LIMIT_WINDOW_MS ≤ ts)) ++ [now], true) := by
  simp only [registerRequest]
  rw [if_neg h]

theorem runRL_spaced :
    ∀ (times adm : List Int) (c : Int),
      List.Pairwise (· ≤ ·) times →
      (∀ n ∈ times, c + RATE_LIMIT_WINDOW_MS ≤ n) →
      Spaced adm →
      Spaced (adm ++ runRateLimiter (adm.filter (fun a => decide (c ≤ a))) times) := by
  intro times
  induction times with
  | nil =>
    intro adm c _ _ hsp
    simpa [runRateLimiter] using hsp
  | cons now rest ih =>
    intro adm c hpw hwin hsp
    rw [List.pairwise_cons] at hpw
    obtain ⟨hle, hpw'⟩ := hpw
    have hcw : c ≤ now - RATE_LIMIT_WINDOW_MS := by
      have := hwin now (List.mem_cons_self _ _)
      omega
    have hkept : (adm.filter (fun a => decide (c ≤ a))).filter
        (fun ts => decide (now - RATE_LIMIT_WINDOW_MS ≤ ts)) =
        adm.filter (fun a => decide (now - RATE_LIMIT_WINDOW_MS ≤ a)) :=
      filter_filter_window adm c (now - RATE_LIMIT_WINDOW_MS) hcw
    have hwin' : ∀ n ∈ rest, (now - RATE_LIMIT_WINDOW_MS) + RATE_LIMIT_WINDOW_MS ≤ n := by
      intro n hn
      have := hle n hn
      omega
    by_cases hthrow :
        RATE_LIMIT_MAX_REQUESTS ≤
          (adm.filter (fun a => decide (now - RATE_LIMIT_WINDOW_MS ≤ a))).length
    · have hstep : runRateLimiter (adm.filter (fun a => decide (c ≤ a))) (now :: rest) =
          runRateLimiter (adm.filter (fun a => decide (now - RATE_LIMIT_WINDOW_MS ≤ a))) rest := by
        rw [runRateLimiter_cons,
          registerRequest_throw now _ (by rw [hkept]; exact hthrow)]
        rw [if_neg Bool.false_ne_true]
        rw [hkept]
      rw [hstep]
      exact ih adm (now - RATE_LIMIT_WINDOW_MS) hpw' hwin' hsp
    · have hcnt :
          (adm.filter (fun a => decide (now - RATE_LIMIT_WINDOW_MS ≤ a))).length ≤ 59 := by
        simp only [RATE_LIMIT_MAX_REQUESTS] at hthrow
        omega
      have hstep : runRateLimiter (adm.filter (fun a => decide (c ≤ a))) (now :: rest) =
          now :: runRateLimiter
            (adm.filter (fun a => decide (now - RATE_LIMIT_WINDOW_MS ≤ a)) ++ [now]) rest := by
        rw [runRateLimiter_cons,
          registerRequest_appendNow now _ (by rw [hkept]; exact hthrow)]
        rw [if_pos rfl]
        rw [hkept]
      rw [hstep]
      have hnw : now - RATE_LIMIT_WINDOW_MS ≤ now := by
        simp only [RATE_LIMIT_WINDOW_MS]
        omega
      have h1 : List.filter (fun a => decide (now - RATE_LIMIT_WINDOW_MS ≤ a)) [now] = [now] := by
        simp only [List.filter_cons, List.filter_nil]
        rw [if_pos (decide_eq_true hnw)]
      have hfilt : adm.filter (fun a => decide (now - RATE_LIMIT_WINDOW_MS ≤ a)) ++ [now] =
          (adm ++ [now]).filter (fun a => decide (now - RATE_LIMIT_WINDOW_MS ≤ a)) := by
        rw [List.filter_append, h1]
      rw [hfilt]
      have hsp' : Spaced (adm ++ [now]) := spaced_append adm now hcnt hsp
      have hres := ih (adm ++ [now]) (now - RATE_LIMIT_WINDOW_MS) hpw' hwin' hsp'
      simpa [List.append_assoc] using hres

theorem spaced_window_bound :
    ∀ A : List Int, Spaced A → ∀ t : Int,
      A.countP (fun x => decide (t ≤ x ∧ x ≤ t + RATE_LIMIT_WINDOW_MS)) ≤ 60 := by
  intro A
  induction A using List.reverseRecOn with
  | nil =>
    intro _ t
    simp
  | append_singleton as a ih =>
    intro hsp t
    have hsp' : Spaced as := by
      intro k hk
      have hk2 : k < (as ++ [a]).length := by
        simp only [List.length_append, List.length_singleton]
        omega
      have h := hsp k hk2
      have htake : (as ++ [a]).take k = as.take k :=
        List.take_append_of_le_length (le_of_lt hk)
      have hget : (as ++ [a])[k] = as[k] := List.getElem_append_left hk
      rw [htake, hget] at h
      exact h
    rw [List.countP_append]
    by_cases hpa : t ≤ a ∧ a ≤ t + RATE_LIMIT_WINDOW_MS
    · have h := hsp as.length (by simp)
      have htake : (as ++ [a]).take as.length = as := List.take_left as [a]
      have hget : (as ++ [a])[as.length] = a := by simp
      rw [htake, hget] at h
      have hmono : as.countP (fun x => decide (t ≤ x ∧ x ≤ t + RATE_LIMIT_WINDOW_MS)) ≤
          as.countP (fun x => decide (a - RATE_LIMIT_WINDOW_MS ≤ x)) := by
        apply List.countP_mono_left
        intro x _ hx
        rw [decide_eq_true_eq] at hx ⊢
        omega
      have hone : List.countP (fun x => decide (t ≤ x ∧ x ≤ t + RATE_LIMIT_WINDOW_MS)) [a] ≤ 1 := by
        by_cases hpa2 : t ≤ a ∧ a ≤ t + RATE_LIMIT_WINDOW_MS <;>
          simp [List.countP_cons, hpa2]
      omega
    · have hzero :
          List.countP (fun x => decide (t ≤ x ∧ x ≤ t + RATE_LIMIT_WINDOW_MS)) [a] = 0 := by
        simp [List.countP_cons, hpa]
      have := ih hsp' t
      omega

/-- C3: `registerRequest` refuses (throws) exactly when at least 60
timestamps remain after discarding those older than five minutes; otherwise
it appends the current timestamp to the (pruned) list.  Consequently a run
of calls at non-decreasing times admits at most 60 requests whose
timestamps lie in any window of width `RATE_LIMIT_WINDOW_MS`. -/
theorem registerRequest_rateLimit :
    (∀ (now : Int) (stamps : List Int),
      ((registerRequest now stamps).2 = false ↔
        RATE_LIMIT_MAX_REQUESTS ≤
          (stamps.filter (fun ts => decide (now - RATE_LIMIT_WINDOW_MS ≤ ts))).length)) ∧
    (∀ (now : Int) (stamps : List Int),
      (registerRequest now stamps).2 = true →
      (registerRequest now stamps).1 =
        stamps.filter (fun ts => decide (now - RATE_LIMIT_WINDOW_MS ≤ ts)) ++ [now]) ∧
    (∀ times : List Int, List.Pairwise (· ≤ ·) times →
      ∀ t : Int,
        (runRateLimiter [] times).countP
          (fun x => decide (t ≤ x ∧ x ≤ t + RATE_LIMIT_WINDOW_MS)) ≤ 60) := by
  refine ⟨?_, ?_, ?_⟩
  · intro now stamps
    simp only [registerRequest]
    split
    · rename_i hc
      exact ⟨fun _ => hc, fun _ => rfl⟩
    · rename_i hc
      constructor
      · intro h
        exact absurd h (by simp)
      · intro h
        exact absurd h hc
  · intro now stamps
    simp only [registerRequest]
    split
    · intro h
      simp at h
    · intro _
      rfl
  · intro times hpw t
    match times with
    | [] => simp [runRateLimiter]
    | n :: rest =>
      have hsp0 : Spaced [] := by
        intro k hk
        simp at hk
      have hwin : ∀ m ∈ n :: rest, (n - RATE_LIMIT_WINDOW_MS) + RATE_LIMIT_WINDOW_MS ≤ m := by
        intro m hm
        rcases List.mem_cons.mp hm with rfl | hm2
        · omega
        · rw [List.pairwise_cons] at hpw
          have := hpw.1 m hm2
          omega
      have h := runRL_spaced (n :: rest) [] (n - RATE_LIMIT_WINDOW_MS) hpw hwin hsp0
      have h2 : Spaced (runRateLimiter [] (n :: rest)) := by simpa using h
      exact spaced_window_bound _ h2 t

theorem selectBest_first_max_witness :
    selectBestSearchResult
      [ { id := some (.num 1), name := some "cage" },
        { id := some (.num 2), name := some "cage", source := some "netease" } ]
      { id := "t", name := "Cage", source := .netease } ≠ none := by
  obtain ⟨i, hi, heq, _, _⟩ := selectBest_first_max.2
    [ { id := some (.num 1), name := some "cage" },
      { id := some (.num 2), name := some "cage", source := some "netease" } ]
    { id := "t", name := "Cage", source := .netease } (by decide)
  rw [heq]
  simp

theorem registerRequest_rateLimit_witness :
    (registerRequest 0 []).1 =
      List.filter (fun ts => decide ((0 : Int) - RATE_LIMIT_WINDOW_MS ≤ ts)) [] ++ [0] ∧
    (runRateLimiter [] [0, 1]).countP
      (fun x => decide ((0 : Int) ≤ x ∧ x ≤ 0 + RATE_LIMIT_WINDOW_MS)) ≤ 60 := by
  constructor
  · exact registerRequest_rateLimit.2.1 0 [] (by decide)
  · exact registerRequest_rateLimit.2.2 [0, 1] (by decide) 0

inductive PlaybackMode
  | order
  | single
  | shuffle
deriving DecidableEq, Repr

/-- The index `playNext` passes to `playSong` (`none` when it returns without
playing).  `shufflePick` stands for the result of the rejection-sampling
`while` loop in shuffle mode. -/
def playNextTargetIndex (mode : PlaybackMode) (currentSongIndex : Int)
    (musicListLength : Nat) (shufflePick : Int) : Option Int :=
  if musicListLength = 0 then none
  else if currentSongIndex < 0 then some 0
  else
    match mode with
    | .shuffle =>
      if musicListLength = 1 then some currentSongIndex else some shufflePick
    | _ =>
      some (if (musicListLength : Int) - 1 ≤ currentSongIndex then 0 else currentSongIndex + 1)

/-- The index `playPrevious` passes to `playSong`. -/
def playPreviousTargetIndex (mode : PlaybackMode) (currentSongIndex : Int)
    (musicListLength : Nat) (shufflePick : Int) : Option Int :=
  if musicListLength = 0 then none
  else if currentSongIndex < 0 then some 0
  else
    match mode with
    | .shuffle =>
      if musicListLength = 1 then some currentSongIndex else some shufflePick
    | _ =>
      some (if currentSongIndex ≤ 0 then (musicListLength : Int) - 1 else currentSongIndex - 1)

/-- C9: in `order` mode, `playNext` advances to `index + 1` wrapping to `0`
from the last song, `playPrevious` goes to `index - 1` wrapping to the last
index from the first; with no selected song both play index `0`; with an
empty list both do nothing. -/
theorem playback_order_nav :
    (∀ (idx pick : Int),
      playNextTargetIndex .order idx 0 pick = none ∧
      playPreviousTargetIndex .order idx 0 pick = none) ∧
    (∀ (idx : Int) (len : Nat) (pick : Int), idx < 0 → 0 < len →
      playNextTargetIndex .order idx len pick = some 0 ∧
      playPreviousTargetIndex .order idx len pick = some 0) ∧
    (∀ (idx : Int) (len : Nat) (pick : Int), 0 ≤ idx → idx < (len : Int) →
      playNextTargetIndex .order idx len pick =
        some (if idx = (len : Int) - 1 then 0 else idx + 1) ∧
      playPreviousTargetIndex .order idx len pick =
        some (if idx = 0 then (len : Int) - 1 else idx - 1)) := by
  refine ⟨?_, ?_, ?_⟩
  · intro idx pick
    constructor <;> rfl
  · intro idx len pick hneg hpos
    constructor
    · simp only [playNextTargetIndex]
      rw [if_neg (by omega), if_pos hneg]
    · simp only [playPreviousTargetIndex]
      rw [if_neg (by omega), if_pos hneg]
  · intro idx len pick h0 hlt
    constructor
    · simp only [playNextTargetIndex]
      rw [if_neg (by omega), if_neg (by omega)]
      congr 1
      by_cases hc : idx = (len : Int) - 1
      · rw [if_pos (by omega), if_pos hc]
      · rw [if_neg (by omega), if_neg hc]
    · simp only [playPreviousTargetIndex]
      rw [if_neg (by omega), if_neg (by omega)]
      congr 1
      by_cases hc : idx = 0
      · rw [if_pos (by omega), if_pos hc]
      · rw [if_neg (by omega), if_neg hc]

theorem playback_order_nav_witness :
    (playNextTargetIndex .order (-1) 2 0 = some 0 ∧
      playPreviousTargetIndex .order (-1) 2 0 = some 0) ∧
    (playNextTargetIndex .order 1 2 0 =
        some (if (1 : Int) = ((2 : Nat) : Int) - 1 then 0 else 1 + 1) ∧
      playPreviousTargetIndex .order 1 2 0 =
        some (if (1 : Int) = 0 then ((2 : Nat) : Int) - 1 else 1 - 1)) :=
  ⟨playback_order_nav.2.1 (-1) 2 0 (by decide) (by decide),
   playback_order_nav.2.2 1 2 0 (by decide) (by decide)⟩

def DEFAULT_SEARCH_COUNT : Nat := 8

/-- Source `INITIAL_TRACKS = LOCAL_TRACKS.map(createTrack)`. -/
def INITIAL_TRACKS : List Track := LOCAL_TRACKS.map createTrack

/-- Source `INITIAL_TRACKS.filter(t => t.source === DEFAULT_SOURCE)`. -/
def INITIAL_SOURCE_TRACKS : List Track :=
  INITIAL_TRACKS.filter (fun t => t.source == MusicSource.netease)

/-- The component state touched by `playSong` and `performSearch`
continuations; defaults are the `useState` initial values.  `soundLoaded`
models `soundRef.current !== null`, `autoPlayFlag` models
`autoPlayRef.current`. -/
structure PlayerState where
  currentSongIndex : Int := -1
  isPlaying : Bool := false
  progress : ℚ := 0
  currentTime : ℚ := 0
  duration : ℚ := 0
  coverUrl : Option String := none
  loadingTrackIndex : Option Int := none
  errorMessage : Option String := none
  soundLoaded : Bool := false
  autoPlayFlag : Bool := false
  localTracks : List Track := INITIAL_TRACKS
  allTracks : List Track := INITIAL_SOURCE_TRACKS
  musicList : List Track := INITIAL_SOURCE_TRACKS
  isSearching : Bool := false
  showingSearchResults : Bool := false
  showTranslation : Bool := false
  lastSearchKeyword : Option String := none
  searchPage : Int := 1
  searchPageInput : String := "1"
  searchHasMore : Bool := false
deriving DecidableEq, Repr

/-- The continuation of `playSong` from the point its awaited resolution
completes (successfully or with an error): the code from the staleness
check `playRequestIdRef.current !== requestId` through the `catch` and
`finally` blocks, as a function of the current ref value, the captured
request id, and the outcome. -/
def playSongAfterAwait (refCurrent requestId : Nat) (index : Int) (autoplay : Bool)
    (outcome : Except String Track) (st : PlayerState) : PlayerState :=
  match outcome with
  | .ok resolvedTrack =>
    if refCurrent ≠ requestId then st
    else
      let st1 := { st with
        soundLoaded := false
        autoPlayFlag := autoplay
        progress := 0
        currentTime := 0
        duration := 0
        currentSongIndex := index
        coverUrl := resolvedTrack.cover.getD none }
      { st1 with loadingTrackIndex := none }
  | .error msg =>
    let st1 := if refCurrent = requestId then { st with errorMessage := some msg } else st
    if refCurrent = requestId then { st1 with loadingTrackIndex := none } else st1

/-- One search response item mapped to a `Track` (the `list.map` inside
`performSearch`). -/
def searchItemToTrack (source : MusicSource) (trimmedKeyword : String)
    (selectedBitrate : Nat) (item : SearchApiItem) (index : Nat) : Track :=
  let rawId := match item.id with
    | some i => i.toStr
    | none => trimmedKeyword ++ "-" ++ toString index
  let trackId := item.id.map ApiId.toStr
  let picId := if strTruthy item.pic_id then item.pic_id else none
  let lyricId := if strTruthy item.lyric_id then item.lyric_id else trackId
  let artistText := match item.artist with
    | some (.many l) => String.intercalate ", " l
    | some (.one s) => s
    | none => ""
  { id := source.toStr ++ "-" ++ rawId
    name := item.name.getD trimmedKeyword
    artist := some artistText
    album := some (item.album.getD "")
    duration := some ""
    source := source
    keyword := some trimmedKeyword
    trackId := trackId
    picId := picId
    lyricId := lyricId
    bitrate := some selectedBitrate
    url := none
    cover := if strTruthy picId then none else some none
    lyric := some none
    tLyric := some none
    fileSizeKb := some none }

/-- The continuation of `performSearch` from the point its awaited search
call settles: the mapping of results, the staleness check
`searchRequestIdRef.current !== requestId`, the active-track merge (an
object spread by `activeTrack`, which carries every `Track` field, so the
merged object equals `activeTrack`), the `catch` branch, and the `finally`
block. -/
def performSearchAfterAwait (refCurrent requestId : Nat) (source : MusicSource)
    (trimmedKeyword : String) (page : Int) (selectedBitrate : Nat)
    (hasActiveSound : Bool) (activeTrack : Option Track)
    (outcome : Except String (Option (List SearchApiItem)))
    (st : PlayerState) : PlayerState :=
  match outcome with
  | .ok raw =>
    let list := raw.getD []
    let mapped := list.enum.map
      (fun p => searchItemToTrack source trimmedKeyword selectedBitrate p.2 p.1)
    if refCurrent ≠ requestId then st
    else
      let st1 := { st with allTracks := mapped }
      let merge : List Track × Option Int :=
        if hasActiveSound then
          match activeTrack with
          | some activeT =>
            match mapped.findIdx? (fun item => item.id == activeT.id) with
            | some existingIndex => (mapped.set existingIndex activeT, some (existingIndex : Int))
            | none => (activeT :: mapped, some 0)
          | none => (mapped, none)
        else (mapped, none)
      let st2 := { st1 with musicList := merge.1 }
      let st3 := match merge.2 with
        | some i => { st2 with currentSongIndex := i }
        | none => st2
      let st4 := { st3 with
        showingSearchResults := true
        showTranslation := false
        lastSearchKeyword := some trimmedKeyword
        searchPage := page
        searchPageInput := toString page
        searchHasMore := (mapped.length == DEFAULT_SEARCH_COUNT)
        errorMessage := if mapped.isEmpty then some "未找到匹配的歌曲" else none }
      { st4 with isSearching := false }
  | .error msg =>
    if refCurrent ≠ requestId then st
    else
      let st1 := { st with
        errorMessage := some msg
        showingSearchResults := true
        showTranslation := false
        lastSearchKeyword := some trimmedKeyword
        searchPage := page
        searchPageInput := toString page
        searchHasMore := false
        allTracks := []
        musicList := if hasActiveSound then st.musicList else [] }
      { st1 with isSearching := false }

/-- C4: a stale continuation mutates nothing.  If the captured request id
differs from the current ref value when the awaited operation settles,
`playSong` performs no state update (song index, cover, progress, error
message, loading index, sound, autoplay flag all untouched) and
`performSearch` performs no update (track lists, current index, error
message, pagination, searching flag all untouched). -/
theorem stale_request_no_update :
    (∀ (refCurrent requestId : Nat) (index : Int) (autoplay : Bool)
        (outcome : Except String Track) (st : PlayerState),
      refCurrent ≠ requestId →
      playSongAfterAwait refCurrent requestId index autoplay outcome st = st) ∧
    (∀ (refCurrent requestId : Nat) (source : MusicSource) (kw : String) (page : Int)
        (br : Nat) (hasActiveSound : Bool) (activeTrack : Option Track)
        (outcome : Except String (Option (List SearchApiItem))) (st : PlayerState),
      refCurrent ≠ requestId →
      performSearchAfterAwait refCurrent requestId source kw page br hasActiveSound
        activeTrack outcome st = st) := by
  constructor
  · intro rc rid idx ap outcome st hne
    cases outcome with
    | ok t => simp [playSongAfterAwait, hne]
    | error e => simp [playSongAfterAwait, hne]
  · intro rc rid source kw page br has activeT outcome st hne
    cases outcome with
    | ok raw => simp [performSearchAfterAwait, hne]
    | error e => simp [performSearchAfterAwait, hne]

theorem stale_request_no_update_witness :
    playSongAfterAwait 0 1 0 true (Except.error "x") { } = { } ∧
    performSearchAfterAwait 0 1 .netease "k" 1 320 false none (Except.error "x") { } = { } :=
  ⟨stale_request_no_update.1 0 1 0 true (Except.error "x") { } (by decide),
   stale_request_no_update.2 0 1 .netease "k" 1 320 false none (Except.error "x") { }
     (by decide)⟩

/-- Response of the `url` endpoint. -/
structure UrlApiResponse where
  url : Option String := none
  br : Option Int := none
  size : Option Int := none
deriving DecidableEq, Repr

/-- Response of the `pic` endpoint. -/
structure PicApiResponse where
  url : Option String := none
deriving DecidableEq, Repr

/-- Response of the `lyric` endpoint (`lyric?: string | null`). -/
structure LyricApiResponse where
  lyric : Option (Option String) := none
  tlyric : Option (Option String) := none
deriving DecidableEq, Repr

/-- The remote API as an oracle: one response per endpoint used by a single
`ensureTrackResolved` run.  `Except.error` covers a failed `fetch` or
non-OK response (the code throws `音乐服务暂时不可用`); `Option.none` on the
payload models a JSON `null` (`search` additionally: a non-array value). -/
structure ApiEnv where
  searchResp : Except String (Option (List SearchApiItem))
  urlResp : Except String (Option UrlApiResponse)
  picResp : Except String (Option PicApiResponse)
  lyricResp : Except String (Option LyricApiResponse)
deriving Repr

/-- Source `callMusicApi(params)`: first `registerRequest()` (with the current
`Date.now()` reading from `clock`), then the fetch, whose outcome the
environment supplies.  State is `(timestamps ref, number of clock reads)`. -/
def callMusicApi {α : Type} (clock : Nat → Int) (st : List Int × Nat)
    (resp : Except String α) : (List Int × Nat) × Except String α :=
  let step := registerRequest (clock st.2) st.1
  let st' := (step.1, st.2 + 1)
  if step.2 then (st', resp) else (st', Except.error "请求过于频繁，请稍后再试")

/-- The identifiers and display fields established by the search block of
`ensureTrackResolved` (or taken from the track when `trackId` is set). -/
structure ResolvedIds where
  trackId : String
  picId : Option String
  lyricId : Option String
  resolvedName : String
  resolvedAlbum : Option String
  resolvedArtist : Option String
deriving DecidableEq, Repr

/-- The `if (!trackId) \x7b ... \x7d` block of `ensureTrackResolved`:
search and pick the best result, or pass the track's own ids through. -/
def searchPhase (env : ApiEnv) (clock : Nat → Int) (st : List Int × Nat)
    (track : Track) (keyword : String) : (List Int × Nat) × Except String ResolvedIds :=
  if strTruthy track.trackId then
    (st, Except.ok
      { trackId := track.trackId.getD ""
        picId := track.picId
        lyricId := track.lyricId
        resolvedName := track.name
        resolvedAlbum := track.album
        resolvedArtist := track.artist })
  else if keyword == "" then
    (st, Except.error "未配置歌曲关键词")
  else
    match callMusicApi clock st env.searchResp with
    | (st1, .error e) => (st1, Except.error e)
    | (st1, .ok raw) =>
      let list := raw.getD []
      match selectBestSearchResult list track with
      | none => (st1, Except.error "未找到对应歌曲")
      | some best =>
        let trackId := match best.id with
          | some i => i.toStr
          | none => "undefined"
        let picId := if strTruthy best.pic_id then best.pic_id else track.picId
        let lyricId := if strTruthy best.lyric_id then best.lyric_id else track.lyricId
        let resolvedName := if strTruthy best.name then best.name.getD track.name else track.name
        let resolvedAlbum := if strTruthy best.album then best.album else track.album
        let artistText : Option String := best.artist.map (fun a =>
          match a with
          | .many l => String.intercalate ", " l
          | .one s => s)
        let resolvedArtist := if strTruthy artistText then artistText else track.artist
        (st1, Except.ok
          { trackId := trackId
            picId := picId
            lyricId := lyricId
            resolvedName := resolvedName
            resolvedAlbum := resolvedAlbum
            resolvedArtist := resolvedArtist })

/-- The guarded cover fetch (`if (picId) try { ... } catch {}`):
returns the possibly updated state and the cover value (the track's
`cover ?? null` on any failure). -/
def picPhase (env : ApiEnv) (clock : Nat → Int) (st : List Int × Nat)
    (track : Track) (picId : Option String) : (List Int × Nat) × Option String :=
  let cover0 : Option String := track.cover.getD none
  if strTruthy picId then
    match callMusicApi clock st env.picResp with
    | (st3, .error _) => (st3, cover0)
    | (st3, .ok picRaw) =>
      match picRaw with
      | some picData =>
        match picData.url with
        | some u => if jsTrim u == "" then (st3, cover0) else (st3, some u)
        | none => (st3, cover0)
      | none => (st3, cover0)
  else (st, cover0)

/-- The guarded lyric fetch (`if (!lyricText && lyricId) try { ... }
catch {}`): returns the state and the (lyric, translation) pair, which
keeps the track's prior values on any failure. -/
def lyricPhase (env : ApiEnv) (clock : Nat → Int) (st : List Int × Nat)
    (track : Track) (lyricId : Option String) :
    (List Int × Nat) × Option String × Option String :=
  let lyricText0 : Option String := track.lyric.getD none
  let translationText0 : Option String := track.tLyric.getD none
  if !(strTruthy lyricText0) && strTruthy lyricId then
    match callMusicApi clock st env.lyricResp with
    | (st4, .error _) => (st4, lyricText0, translationText0)
    | (st4, .ok lyricRaw) =>
      match lyricRaw with
      | some lyricData =>
        let lt := match lyricData.lyric with
          | some (some s) => if jsTrim s == "" then lyricText0 else some s
          | _ => lyricText0
        let tt := match lyricData.tlyric with
          | some (some s) => if jsTrim s == "" then translationText0 else some s
          | _ => translationText0
        (st4, lt, tt)
      | none => (st4, lyricText0, translationText0)
  else (st, lyricText0, translationText0)

/-- Source `ensureTrackResolved(track, desiredBitrate)` with the remote API and
clock as oracles and the rate-limiter state passed explicitly.
`updateTrackInStates` (a React state write with the returned track) is
outside the modelled state. -/
def ensureTrackResolved (env : ApiEnv) (clock : Nat → Int) (st : List Int × Nat)
    (track : Track) (desiredBitrate : Nat) : (List Int × Nat) × Except String Track :=
  if strTruthy track.url && track.bitrate == some desiredBitrate then
    (st, Except.ok track)
  else
    let keyword := jsTrim (track.keyword.getD (track.name ++ " " ++ track.artist.getD ""))
    match searchPhase env clock st track keyword with
    | (st1, .error e) => (st1, Except.error e)
    | (st1, .ok ids) =>
      match callMusicApi clock st1 env.urlResp with
      | (st2, .error e) => (st2, Except.error e)
      | (st2, .ok urlRaw) =>
        match urlRaw with
        | none => (st2, Except.error "未获取到播放链接")
        | some urlData =>
          if !(strTruthy urlData.url) then (st2, Except.error "未获取到播放链接")
          else
            let resolvedUrl := sanitizeUrl (urlData.url.getD "")
            let picStep := picPhase env clock st2 track ids.picId
            let cover := picStep.2
            let lyricStep := lyricPhase env clock picStep.1 track ids.lyricId
            let fileSizeKb : Option Int := match urlData.size with
              | some n => some n
              | none => track.fileSizeKb.getD none
            let resolvedTrack : Track := { track with
              url := some resolvedUrl
              trackId := some ids.trackId
              picId := ids.picId
              lyricId := ids.lyricId
              cover := some cover
              name := ids.resolvedName
              album := ids.resolvedAlbum
              artist := ids.resolvedArtist
              bitrate := some desiredBitrate
              lyric := some lyricStep.2.1
              tLyric := some lyricStep.2.2
              fileSizeKb := some fileSizeKb }
            (lyricStep.1, Except.ok resolvedTrack)

/-- C8: resolution is a no-op on an already-resolved track.  When `url` is
set (truthy) and the bitrate equals the desired one, `ensureTrackResolved`
returns the very same track, for every environment and clock (hence makes
no remote call), and leaves the rate-limiter state unchanged. -/
theorem ensureTrackResolved_noop :
    ∀ (env : ApiEnv) (clock : Nat → Int) (st : List Int × Nat) (track : Track) (br : Nat),
      strTruthy track.url = true → track.bitrate = some br →
      ensureTrackResolved env clock st track br = (st, Except.ok track) := by
  intro env clock st track br hurl hbr
  simp [ensureTrackResolved, hurl, hbr]

theorem ensureTrackResolved_noop_witness :
    ensureTrackResolved
      { searchResp := Except.error "e", urlResp := Except.error "e",
        picResp := Except.error "e", lyricResp := Except.error "e" }
      (fun _ => 0) ([], 0)
      { id := "a", name := "n", source := .netease, url := some "u", bitrate := some 320 }
      320 =
    (([], 0), Except.ok
      { id := "a", name := "n", source := .netease, url := some "u", bitrate := some 320 }) :=
  ensureTrackResolved_noop _ _ _ _ _ (by decide) (by decide)

theorem callMusicApi_pass {α : Type} (clock : Nat → Int) (st : List Int × Nat)
    (resp : Except String α) (h : st.1.length < RATE_LIMIT_MAX_REQUESTS) :
    callMusicApi clock st resp =
      ((st.1.filter (fun ts => decide (clock st.2 - RATE_LIMIT_WINDOW_MS ≤ ts)) ++ [clock st.2],
        st.2 + 1), resp) := by
  have hadm := registerRequest_appendNow (clock st.2) st.1 (by
    have hle := List.length_filter_le
      (fun ts => decide (clock st.2 - RATE_LIMIT_WINDOW_MS ≤ ts)) st.1
    omega)
  simp only [callMusicApi, hadm]
  rw [if_pos trivial]

/-- C5: given an (unresolved) local track descriptor with ids, when the url,
pic and lyric endpoints answer successfully, `ensureTrackResolved` returns a
resolved track whose `url` is the sanitized url of the url endpoint, whose
`cover` is the image URL obtained for its pic id, and whose `lyric` and
`tLyric` hold the lyrics obtained for its lyric id (and the desired
bitrate). -/
theorem ensureTrackResolved_resolves :
    ∀ (env : ApiEnv) (clock : Nat → Int) (track : Track) (br : Nat)
      (u : UrlApiResponse) (us : String) (p : PicApiResponse) (pu : String)
      (L : LyricApiResponse) (ly tl : String),
      strTruthy track.url = false →
      strTruthy track.trackId = true →
      strTruthy track.picId = true →
      strTruthy track.lyricId = true →
      strTruthy (track.lyric.getD none) = false →
      env.urlResp = Except.ok (some u) →
      u.url = some us → us ≠ "" →
      env.picResp = Except.ok (some p) →
      p.url = some pu → jsTrim pu ≠ "" →
      env.lyricResp = Except.ok (some L) →
      L.lyric = some (some ly) → jsTrim ly ≠ "" →
      L.tlyric = some (some tl) → jsTrim tl ≠ "" →
      (ensureTrackResolved env clock ([], 0) track br).2.map
          (fun r => (r.url, r.cover, r.lyric, r.tLyric, r.bitrate)) =
        Except.ok (some (sanitizeUrl us), some (some pu), some (some ly),
          some (some tl), some br) := by
  intro env clock track br u us p pu L ly tl hurl hid hpic hlyid hly0 heu huu hus hep hpu
    hput hel hll hlyt hlt hltt
  have hus' : (us == "") = false := by rw [beq_eq_false_iff_ne]; exact hus
  have hust : strTruthy (some us) = true := by
    simp only [strTruthy, hus', Bool.not_false]
  have hput' : (jsTrim pu == "") = false := by rw [beq_eq_false_iff_ne]; exact hput
  have hlyt' : (jsTrim ly == "") = false := by rw [beq_eq_false_iff_ne]; exact hlyt
  have hltt' : (jsTrim tl == "") = false := by rw [beq_eq_false_iff_ne]; exact hltt
  have hcall1 : callMusicApi (α := Option UrlApiResponse) clock ([], 0) env.urlResp =
      (([clock 0], 1), env.urlResp) := by
    rw [callMusicApi_pass clock ([], 0) env.urlResp (by decide)]
    simp
  rw [heu] at hcall1
  have hcall2 : callMusicApi (α := Option PicApiResponse) clock ([clock 0], 1) env.picResp =
      (([clock 0].filter (fun ts => decide (clock 1 - RATE_LIMIT_WINDOW_MS ≤ ts)) ++ [clock 1],
        2), env.picResp) := by
    rw [callMusicApi_pass clock ([clock 0], 1) env.picResp (by
      simp [RATE_LIMIT_MAX_REQUESTS])]
  rw [hep] at hcall2
  have hlenA2 :
      ([clock 0].filter (fun ts => decide (clock 1 - RATE_LIMIT_WINDOW_MS ≤ ts)) ++
        [clock 1]).length < RATE_LIMIT_MAX_REQUESTS := by
    have hb := List.length_filter_le
      (fun ts => decide (clock 1 - RATE_LIMIT_WINDOW_MS ≤ ts)) [clock 0]
    simp only [List.length_append, List.length_singleton, List.length_cons, List.length_nil,
      RATE_LIMIT_MAX_REQUESTS] at hb ⊢
    omega
  have hcall3 : callMusicApi (α := Option LyricApiResponse) clock
      (([clock 0].filter (fun ts => decide (clock 1 - RATE_LIMIT_WINDOW_MS ≤ ts)) ++
        [clock 1], 2)) env.lyricResp =
      ((([clock 0].filter (fun ts => decide (clock 1 - RATE_LIMIT_WINDOW_MS ≤ ts)) ++
          [clock 1]).filter (fun ts => decide (clock 2 - RATE_LIMIT_WINDOW_MS ≤ ts)) ++
        [clock 2], 3), env.lyricResp) := by
    rw [callMusicApi_pass clock _ env.lyricResp hlenA2]
  rw [hel] at hcall3
  simp only [ensureTrackResolved, picPhase, lyricPhase, hurl, Bool.false_and,
    Bool.false_eq_true, if_false, searchPhase, hid, if_true, hcall1, heu, hcall2, hep,
    hcall3, hel, huu, hpu, hll, hlt, hus', hput', hlyt', hltt', hpic, hlyid, hly0,
    Bool.not_false, Bool.and_self, Except.map]
  simp [hus', hput', hlyt', hltt', hust, picPhase, lyricPhase]

theorem ensureTrackResolved_resolves_witness :
    (ensureTrackResolved
      { searchResp := Except.error "e"
        urlResp := Except.ok (some { url := some "http://a?x=1&amp;y=2" })
        picResp := Except.ok (some { url := some "http://pic" })
        lyricResp := Except.ok (some { lyric := some (some "[00:01]hi")
                                       tlyric := some (some "[00:01]哈") }) }
      (fun n => (n : Int)) ([], 0)
      { id := "a", name := "n", source := .netease, trackId := some "42",
        picId := some "p", lyricId := some "L" } 320).2.map
        (fun r => (r.url, r.cover, r.lyric, r.tLyric, r.bitrate)) =
      Except.ok (some (sanitizeUrl "http://a?x=1&amp;y=2"), some (some "http://pic"),
        some (some "[00:01]hi"), some (some "[00:01]哈"), some 320) :=
  ensureTrackResolved_resolves _ _ _ _ _ _ _ _ _ _ _ (by decide) (by decide) (by decide)
    (by decide) (by decide) rfl rfl (by decide) rfl rfl (by decide) rfl rfl (by decide)
    rfl (by decide)

theorem picPhase_env_error (env : ApiEnv) (clock : Nat → Int) (st : List Int × Nat)
    (track : Track) (picId : Option String) (e : String)
    (he : env.picResp = Except.error e) :
    (picPhase env clock st track picId).2 = track.cover.getD none := by
  simp only [picPhase]
  by_cases hp : strTruthy picId = true
  · rw [if_pos hp]
    cases hb : (registerRequest (clock st.2) st.1).2 <;>
      simp [callMusicApi, hb, he]
  · rw [if_neg hp]

theorem lyricPhase_env_error (env : ApiEnv) (clock : Nat → Int) (st : List Int × Nat)
    (track : Track) (lyricId : Option String) (e : String)
    (he : env.lyricResp = Except.error e) :
    (lyricPhase env clock st track lyricId).2 =
      (track.lyric.getD none, track.tLyric.getD none) := by
  simp only [lyricPhase]
  by_cases hp : (!(strTruthy (track.lyric.getD none)) && strTruthy lyricId) = true
  · rw [if_pos hp]
    cases hb : (registerRequest (clock st.2) st.1).2 <;>
      simp [callMusicApi, hb, he]
  · rw [if_neg hp]

theorem searchPhase_error_iff (env : ApiEnv) (clock : Nat → Int) (st : List Int × Nat)
    (track : Track) (keyword : String) :
    (∃ e, (searchPhase env clock st track keyword).2 = Except.error e) ↔
      (strTruthy track.trackId = false ∧
        (keyword = "" ∨
         (registerRequest (clock st.2) st.1).2 = false ∨
         (∃ e, env.searchResp = Except.error e) ∨
         (∃ raw, env.searchResp = Except.ok raw ∧
            selectBestSearchResult (raw.getD []) track = none))) := by
  by_cases hid : strTruthy track.trackId = true
  · simp [searchPhase, hid]
  · have hid' : strTruthy track.trackId = false := by
      rw [Bool.eq_false_iff]; exact hid
    by_cases hkw : keyword = ""
    · subst hkw
      simp [searchPhase, hid']
    · have hkwb : (keyword == "") = false := by rw [beq_eq_false_iff_ne]; exact hkw
      by_cases hreg : (registerRequest (clock st.2) st.1).2 = true
      · cases hsr : env.searchResp with
        | error e =>
          simp [searchPhase, hid', hkwb, callMusicApi, hreg, hsr, hkw]
        | ok raw =>
          cases hbest : selectBestSearchResult (raw.getD []) track with
          | none =>
            simp [searchPhase, hid', hkwb, callMusicApi, hreg, hsr, hbest, hkw]
          | some best =>
            simp [searchPhase, hid', hkwb, callMusicApi, hreg, hsr, hbest, hkw]
      · have hreg' : (registerRequest (clock st.2) st.1).2 = false := by
          rw [Bool.eq_false_iff]; exact hreg
        simp [searchPhase, hid', hkwb, callMusicApi, hreg', hkw]

/-- C6: for a track entering resolution (no playable `url` yet),
`ensureTrackResolved` throws exactly when: it has no (truthy) `trackId` and
the trimmed search keyword is empty; it has no `trackId` and the search
yields no usable result (the rate limiter refuses, the fetch fails, or no
best item exists); or the url call fails (rate limiter, fetch) or returns a
response with no usable url.  A failing cover or lyric fetch never causes a
throw: the track still resolves with its previous `cover ?? null`,
`lyric ?? null` and `tLyric ?? null` values. -/
theorem ensureTrackResolved_throw :
    (∀ (env : ApiEnv) (clock : Nat → Int) (st : List Int × Nat) (track : Track) (br : Nat),
      strTruthy track.url = false →
      ((∃ e, (ensureTrackResolved env clock st track br).2 = Except.error e) ↔
        ((strTruthy track.trackId = false ∧
            jsTrim (track.keyword.getD (track.name ++ " " ++ track.artist.getD "")) = "") ∨
         (strTruthy track.trackId = false ∧
            jsTrim (track.keyword.getD (track.name ++ " " ++ track.artist.getD "")) ≠ "" ∧
            ((registerRequest (clock st.2) st.1).2 = false ∨
             (∃ e, env.searchResp = Except.error e) ∨
             (∃ raw, env.searchResp = Except.ok raw ∧
                selectBestSearchResult (raw.getD []) track = none))) ∨
         (∃ st1 ids,
            searchPhase env clock st track
              (jsTrim (track.keyword.getD (track.name ++ " " ++ track.artist.getD ""))) =
              (st1, Except.ok ids) ∧
            ((registerRequest (clock st1.2) st1.1).2 = false ∨
             (∃ e, env.urlResp = Except.error e) ∨
             env.urlResp = Except.ok none ∨
             (∃ u, env.urlResp = Except.ok (some u) ∧ strTruthy u.url = false)))))) ∧
    (∀ (env : ApiEnv) (clock : Nat → Int) (st : List Int × Nat) (track : Track) (br : Nat)
        (u : UrlApiResponse) (us : String) (e1 e2 : String),
      strTruthy track.url = false →
      strTruthy track.trackId = true →
      (registerRequest (clock st.2) st.1).2 = true →
      env.urlResp = Except.ok (some u) → u.url = some us → us ≠ "" →
      env.picResp = Except.error e1 →
      env.lyricResp = Except.error e2 →
      (ensureTrackResolved env clock st track br).2.map
          (fun r => (r.cover, r.lyric, r.tLyric)) =
        Except.ok (some (track.cover.getD none), some (track.lyric.getD none),
          some (track.tLyric.getD none))) := by
  constructor
  · intro env clock st track br hurl
    rcases hsp : searchPhase env clock st track
        (jsTrim (track.keyword.getD (track.name ++ " " ++ track.artist.getD ""))) with
      ⟨st1, r1⟩
    cases r1 with
    | error e =>
      have hres : (ensureTrackResolved env clock st track br).2 = Except.error e := by
        simp only [ensureTrackResolved, hurl, Bool.false_and, Bool.false_eq_true, if_false]
        rw [hsp]
      constructor
      · intro _
        have hErr : ∃ e', (searchPhase env clock st track
            (jsTrim (track.keyword.getD (track.name ++ " " ++ track.artist.getD "")))).2 =
              Except.error e' := ⟨e, by rw [hsp]⟩
        obtain ⟨hid', hdisj⟩ := (searchPhase_error_iff env clock st track _).mp hErr
        by_cases hkw :
            jsTrim (track.keyword.getD (track.name ++ " " ++ track.artist.getD "")) = ""
        · exact Or.inl ⟨hid', hkw⟩
        · rcases hdisj with h | h | h | h
          · exact absurd h hkw
          · exact Or.inr (Or.inl ⟨hid', hkw, Or.inl h⟩)
          · exact Or.inr (Or.inl ⟨hid', hkw, Or.inr (Or.inl h)⟩)
          · exact Or.inr (Or.inl ⟨hid', hkw, Or.inr (Or.inr h)⟩)
      · intro _
        exact ⟨e, hres⟩
    | ok ids =>
      by_cases hreg : (registerRequest (clock st1.2) st1.1).2 = true
      · cases hu : env.urlResp with
        | error e2 =>
          have hres : (ensureTrackResolved env clock st track br).2 = Except.error e2 := by
            simp only [ensureTrackResolved, hurl, Bool.false_and, Bool.false_eq_true, if_false]
            rw [hsp]
            simp [callMusicApi, hreg, hu]
          constructor
          · intro _
            exact Or.inr (Or.inr ⟨st1, ids, rfl, Or.inr (Or.inl ⟨e2, rfl⟩)⟩)
          · intro _
            exact ⟨e2, hres⟩
        | ok urlRaw =>
          cases urlRaw with
          | none =>
            have hres : (ensureTrackResolved env clock st track br).2 =
                Except.error "未获取到播放链接" := by
              simp only [ensureTrackResolved, hurl, Bool.false_and, Bool.false_eq_true,
                if_false]
              rw [hsp]
              simp [callMusicApi, hreg, hu]
            constructor
            · intro _
              exact Or.inr (Or.inr ⟨st1, ids, rfl, Or.inr (Or.inr (Or.inl rfl))⟩)
            · intro _
              exact ⟨_, hres⟩
          | some u =>
            by_cases huu : strTruthy u.url = true
            · have hok : ∀ e, (ensureTrackResolved env clock st track br).2 ≠
                  Except.error e := by
                intro e hcon
                simp only [ensureTrackResolved, hurl, Bool.false_and, Bool.false_eq_true,
                  if_false] at hcon
                rw [hsp] at hcon
                simp [callMusicApi, hreg, hu, huu] at hcon
              constructor
              · intro ⟨e, he⟩
                exact absurd he (hok e)
              · intro hrhs
                exfalso
                rcases hrhs with ⟨hid', hkw⟩ | ⟨hid', hkw, hdisj⟩ | ⟨st1', ids', hsp', hdisj⟩
                · obtain ⟨e, he⟩ := (searchPhase_error_iff env clock st track _).mpr
                    ⟨hid', Or.inl hkw⟩
                  rw [hsp] at he
                  simp at he
                · obtain ⟨e, he⟩ := (searchPhase_error_iff env clock st track _).mpr
                    ⟨hid', by
                      rcases hdisj with h | h | h
                      · exact Or.inr (Or.inl h)
                      · exact Or.inr (Or.inr (Or.inl h))
                      · exact Or.inr (Or.inr (Or.inr h))⟩
                  rw [hsp] at he
                  simp at he
                · have hst1 : st1 = st1' := congrArg Prod.fst hsp'
                  subst hst1
                  rcases hdisj with h | ⟨e, he⟩ | he | ⟨u', hu', huu'⟩
                  · rw [hreg] at h
                    exact absurd h (by decide)
                  · exact Except.noConfusion he
                  · have h2 := Except.ok.inj he
                    exact Option.noConfusion h2
                  · have hu2 : u = u' := Option.some.inj (Except.ok.inj hu')
                    subst hu2
                    rw [huu] at huu'
                    exact absurd huu' (by decide)
            · have huu' : strTruthy u.url = false := by
                rw [Bool.eq_false_iff]; exact huu
              have hres : (ensureTrackResolved env clock st track br).2 =
                  Except.error "未获取到播放链接" := by
                simp only [ensureTrackResolved, hurl, Bool.false_and, Bool.false_eq_true,
                  if_false]
                rw [hsp]
                simp [callMusicApi, hreg, hu, huu']
              constructor
              · intro _
                exact Or.inr (Or.inr ⟨st1, ids, rfl, Or.inr (Or.inr (Or.inr ⟨u, rfl, huu'⟩))⟩)
              · intro _
                exact ⟨_, hres⟩
      · have hreg' : (registerRequest (clock st1.2) st1.1).2 = false := by
          rw [Bool.eq_false_iff]; exact hreg
        have hres : (ensureTrackResolved env clock st track br).2 =
            Except.error "请求过于频繁，请稍后再试" := by
          simp only [ensureTrackResolved, hurl, Bool.false_and, Bool.false_eq_true, if_false]
          rw [hsp]
          simp [callMusicApi, hreg']
        constructor
        · intro _
          exact Or.inr (Or.inr ⟨st1, ids, rfl, Or.inl hreg'⟩)
        · intro _
          exact ⟨_, hres⟩
  · intro env clock st track br u us e1 e2 hurl hid hreg heu huu hus hpe hle
    have hus' : (us == "") = false := by rw [beq_eq_false_iff_ne]; exact hus
    have hust : strTruthy (some us) = true := by
      simp only [strTruthy, hus', Bool.not_false]
    have hpic2 := picPhase_env_error env clock
      ((registerRequest (clock st.2) st.1).1, st.2 + 1) track track.picId e1 hpe
    have hlyr2 := lyricPhase_env_error env clock
      (picPhase env clock ((registerRequest (clock st.2) st.1).1, st.2 + 1) track
        track.picId).1 track track.lyricId e2 hle
    simp only [ensureTrackResolved, hurl, Bool.false_and, Bool.false_eq_true, if_false,
      searchPhase, hid, if_true, callMusicApi, hreg, heu, huu, hust]
    simp [hpic2, hlyr2, Except.map]

theorem ensureTrackResolved_throw_witness :
    (∃ e, (ensureTrackResolved
        { searchResp := Except.error "se", urlResp := Except.error "ue",
          picResp := Except.error "pe", lyricResp := Except.error "le" }
        (fun _ => 0) ([], 0)
        { id := "a", name := "", source := .netease } 320).2 = Except.error e) ∧
    (ensureTrackResolved
        { searchResp := Except.error "se",
          urlResp := Except.ok (some { url := some "http://u" }),
          picResp := Except.error "pe", lyricResp := Except.error "le" }
        (fun _ => 0) ([], 0)
        { id := "a", name := "n", source := .netease, trackId := some "42" } 320).2.map
        (fun r => (r.cover, r.lyric, r.tLyric)) =
      Except.ok (some none, some none, some none) := by
  constructor
  · exact (ensureTrackResolved_throw.1 _ _ _ _ _ (by decide)).mpr
      (Or.inl ⟨by decide, by decide⟩)
  · exact ensureTrackResolved_throw.2 _ _ _ _ _ _ "http://u" "pe" "le" (by decide)
      (by decide) (by decide) rfl rfl (by decide) rfl rfl
